import Mathlib

/-!
Verification of the toaster incremental fault-injection harness
(src/src/toaster.c) against its specification.

The harness keeps two process-wide variables, `static int gcnt` and
`static int gset`.  We embed them as an explicit state record and each C
function as a state transformer.  C `int` is modelled by `Int`: the only
arithmetic the code performs is `--gcnt`, `i++` and `max - min`, and signed
overflow of `int` is undefined behaviour in C, so every defined execution
of the program agrees with the ideal-integer model.  `gset` is only ever
assigned 0 or 1 and only tested for truthiness, so it is embedded as
`Bool`.
-/

/-- The process-wide mutable state of toaster.c: `static int gcnt` (the
failure budget counter) and `static int gset` (the armed flag). -/
structure Toaster where
  gcnt : Int
  gset : Bool
deriving DecidableEq

/-- Embedding of `toaster_check`:
`if(gset && --gcnt < 0) { return -1; } return 0;`.
When armed it pre-decrements the counter and fails (returns -1) exactly
when the decremented counter is negative; when disarmed it returns 0 and
leaves the counter untouched (short-circuit of `&&`). -/
def toaster_check (s : Toaster) : Int × Toaster :=
  if s.gset then
    let c := s.gcnt - 1
    ((if c < 0 then -1 else 0), { s with gcnt := c })
  else
    (0, s)

/-- Embedding of `toaster_set`: `gcnt = cnt; gset = 1;`.  The prior state
is completely overwritten. -/
def toaster_set (cnt : Int) (_ : Toaster) : Toaster :=
  { gcnt := cnt, gset := true }

/-- Embedding of `toaster_get`: `if(gset) return gcnt; return -1;`. -/
def toaster_get (s : Toaster) : Int :=
  if s.gset then s.gcnt else -1

/-- Embedding of `toaster_end`: `gcnt = 0; gset = 0;`. -/
def toaster_end (_ : Toaster) : Toaster :=
  { gcnt := 0, gset := false }

/-- State after `k` consecutive calls to `toaster_check`. -/
def checkIter : Nat → Toaster → Toaster
  | 0, s => s
  | k + 1, s => checkIter k (toaster_check s).2

/-- Return value of the `(k+1)`-th consecutive call to `toaster_check`
starting from state `s` (so `nthCheckResult 0 s` is the first call). -/
def nthCheckResult (k : Nat) (s : Toaster) : Int :=
  (toaster_check (checkIter k s)).1

theorem toaster_check_armed (g : Int) :
    toaster_check ⟨g, true⟩ = ((if g - 1 < 0 then -1 else 0), ⟨g - 1, true⟩) := rfl

theorem toaster_check_disarmed (g : Int) :
    toaster_check ⟨g, false⟩ = (0, ⟨g, false⟩) := rfl

theorem checkIter_armed (k : Nat) (g : Int) :
    checkIter k ⟨g, true⟩ = ⟨g - k, true⟩ := by
  induction k generalizing g with
  | zero => simp [checkIter]
  | succ k ih =>
      rw [checkIter, toaster_check_armed, ih]
      congr 1
      push_cast
      ring

theorem checkIter_disarmed (k : Nat) (g : Int) :
    checkIter k ⟨g, false⟩ = ⟨g, false⟩ := by
  induction k with
  | zero => simp [checkIter]
  | succ k ih => rw [checkIter, toaster_check_disarmed, ih]

theorem nthCheckResult_armed (k : Nat) (g : Int) :
    nthCheckResult k ⟨g, true⟩ = if g - k - 1 < 0 then -1 else 0 := by
  rw [nthCheckResult, checkIter_armed, toaster_check_armed]

theorem nthCheckResult_disarmed (k : Nat) (g : Int) :
    nthCheckResult k ⟨g, false⟩ = 0 := by
  rw [nthCheckResult, checkIter_disarmed, toaster_check_disarmed]

/-- C1: for every `n >= 0`, after `toaster_set n` the first `n` calls to
`toaster_check` (indices `0 .. n-1`) each return 0 ("pass"), and the
`(n+1)`-th call (index `n`) and every further call before the next arm or
disarm return -1 ("fail"). -/
theorem arm_n_allows_exactly_n_passes (n : Int) (hn : 0 ≤ n) (s0 : Toaster) :
    (∀ k : Nat, (k : Int) < n → nthCheckResult k (toaster_set n s0) = 0) ∧
    (∀ k : Nat, n ≤ (k : Int) → nthCheckResult k (toaster_set n s0) = -1) := by
  constructor
  · intro k hk
    rw [toaster_set, nthCheckResult_armed, if_neg]
    omega
  · intro k hk
    rw [toaster_set, nthCheckResult_armed, if_pos]
    omega

theorem arm_n_allows_exactly_n_passes_witness :
    (0 : Int) ≤ 2 ∧
    nthCheckResult 0 (toaster_set 2 ⟨0, false⟩) = 0 ∧
    nthCheckResult 1 (toaster_set 2 ⟨0, false⟩) = 0 ∧
    nthCheckResult 2 (toaster_set 2 ⟨0, false⟩) = -1 ∧
    nthCheckResult 5 (toaster_set 2 ⟨0, false⟩) = -1 :=
  ⟨by decide,
   (arm_n_allows_exactly_n_passes 2 (by decide) ⟨0, false⟩).1 0 (by decide),
   (arm_n_allows_exactly_n_passes 2 (by decide) ⟨0, false⟩).1 1 (by decide),
   (arm_n_allows_exactly_n_passes 2 (by decide) ⟨0, false⟩).2 2 (by decide),
   (arm_n_allows_exactly_n_passes 2 (by decide) ⟨0, false⟩).2 5 (by decide)⟩

/-- C6: in an armed state whose counter has gone below 0 (a consume has
already reported failure), every further call to `toaster_check` before
re-arming returns -1, for any number of further calls: the failing state
saturates and never reports success again. -/
theorem consume_saturates_after_exhaustion (g : Int) (hg : g < 0) (k : Nat) :
    nthCheckResult k ⟨g, true⟩ = -1 := by
  rw [nthCheckResult_armed, if_pos]
  omega

theorem consume_saturates_after_exhaustion_witness :
    (-1 : Int) < 0 ∧ nthCheckResult 100 ⟨-1, true⟩ = -1 :=
  ⟨by decide, consume_saturates_after_exhaustion (-1) (by decide) 100⟩

/-- C7: after `toaster_end`, every call to `toaster_check` returns 0
("pass") until the next arm, regardless of the prior state; and as the
concrete scenario states, `toaster_set 0` makes the first and second
consumes both return -1 ("fail"), while after `toaster_end` the consume
returns 0. -/
theorem disarm_restores_pass (s : Toaster) (k : Nat) :
    nthCheckResult k (toaster_end s) = 0 ∧
    nthCheckResult 0 (toaster_set 0 s) = -1 ∧
    nthCheckResult 1 (toaster_set 0 s) = -1 := by
  refine ⟨?_, ?_, ?_⟩
  · rw [toaster_end, nthCheckResult_disarmed]
  · rw [toaster_set, nthCheckResult_armed]; decide
  · rw [toaster_set, nthCheckResult_armed]; decide

/-- C10: `toaster_set n` with `n < 0` succeeds (it has no error path) and
the resulting state behaves exactly like `toaster_set 0`: the very first
`toaster_check` returns -1, as does every subsequent one before the next
arm or disarm. -/
theorem arm_negative_behaves_like_arm_zero (n : Int) (hn : n < 0)
    (s0 : Toaster) (k : Nat) :
    nthCheckResult k (toaster_set n s0) = -1 ∧
    nthCheckResult k (toaster_set n s0) = nthCheckResult k (toaster_set 0 s0) := by
  have h1 : nthCheckResult k (toaster_set n s0) = -1 := by
    rw [toaster_set, nthCheckResult_armed, if_pos]
    omega
  have h2 : nthCheckResult k (toaster_set 0 s0) = -1 := by
    rw [toaster_set, nthCheckResult_armed, if_pos]
    omega
  exact ⟨h1, h1.trans h2.symm⟩

theorem arm_negative_behaves_like_arm_zero_witness :
    (-3 : Int) < 0 ∧
    nthCheckResult 0 (toaster_set (-3) ⟨0, false⟩) = -1 ∧
    nthCheckResult 0 (toaster_set (-3) ⟨0, false⟩) =
      nthCheckResult 0 (toaster_set 0 ⟨0, false⟩) :=
  ⟨by decide,
   (arm_negative_behaves_like_arm_zero (-3) (by decide) ⟨0, false⟩ 0).1,
   (arm_negative_behaves_like_arm_zero (-3) (by decide) ⟨0, false⟩ 0).2⟩

/-!
The run driver.  A test function under the harness is a state transformer
`Toaster → Int × Toaster`: it may call `toaster_check` any number of times
(mutating the state) and returns an `int` outcome, 0 meaning success.

`toaster_run_range` is the C loop

  int i; int err = -1;
  for(i = min; i <= max && err != 0; ++i) { toaster_set(i); err = test(); }
  toaster_end();
  return err;

Since `i` increases by one per iteration and the loop stops once
`i > max`, the loop body runs at most `(max - min + 1).toNat` times; that
quantity is the structural fuel of the recursion below.  Alongside the C
observables (final `err` and final state) the embedding also returns the
trace of attempts, one `(budget, outcome)` pair per loop iteration — each
iteration arms the budget with `i` and invokes the test exactly once, so
the trace records both the sequence of budget-state changes and the
sequence of test invocations. -/

/-- One run of the loop of `toaster_run_range`, starting at loop index `i`
with current `err` and `fuel` remaining admissible index values; returns
the final `err`, the state before `toaster_end`, and the attempt trace. -/
def runRangeAux (test : Toaster → Int × Toaster) :
    Nat → Int → Int → Toaster → Int × Toaster × List (Int × Int)
  | 0, _, err, s => (err, s, [])
  | fuel + 1, i, err, s =>
      let r := test (toaster_set i s)
      if r.1 = 0 then
        (r.1, r.2, [(i, r.1)])
      else
        let rest := runRangeAux test fuel (i + 1) r.1 r.2
        (rest.1, rest.2.1, (i, r.1) :: rest.2.2)

/-- Embedding of `toaster_run_range`: returned `err` and final state
(after `toaster_end`). -/
def toaster_run_range (min max : Int) (test : Toaster → Int × Toaster)
    (s : Toaster) : Int × Toaster :=
  let r := runRangeAux test (max - min + 1).toNat min (-1) s
  (r.1, toaster_end r.2.1)

/-- Attempt trace of `toaster_run_range`: the `(budget, outcome)` pair of
each loop iteration, in order. -/
def toaster_run_range_trace (min max : Int) (test : Toaster → Int × Toaster)
    (s : Toaster) : List (Int × Int) :=
  (runRangeAux test (max - min + 1).toNat min (-1) s).2.2

/-- Embedding of `toaster_run_max`:
`return toaster_run_range(0, max, test);`. -/
def toaster_run_max (max : Int) (test : Toaster → Int × Toaster)
    (s : Toaster) : Int × Toaster :=
  toaster_run_range 0 max test s

/-- Attempt trace of `toaster_run_max`. -/
def toaster_run_max_trace (max : Int) (test : Toaster → Int × Toaster)
    (s : Toaster) : List (Int × Int) :=
  toaster_run_range_trace 0 max test s

/-- Embedding of `toaster_run`: `return test();`.  The budget state is
neither read nor written by the driver itself; the test runs on the
caller state unchanged. -/
def toaster_run (test : Toaster → Int × Toaster) (s : Toaster) :
    Int × Toaster :=
  test s

/-- C8: `toaster_run_max max` is `toaster_run_range 0 max`: identical
returned outcome, identical final state, and identical attempt trace
(the sequence of budget armings and test invocations with their
outcomes). -/
theorem run_max_is_run_range_from_zero (max : Int)
    (test : Toaster → Int × Toaster) (s : Toaster) :
    toaster_run_max max test s = toaster_run_range 0 max test s ∧
    toaster_run_max_trace max test s = toaster_run_range_trace 0 max test s :=
  ⟨rfl, rfl⟩

/-- C9: with `min > max` the loop body of `toaster_run_range` never runs:
the test is invoked zero times, the initial `err = -1` is returned even
though no attempt was observed, and the final state is the disarmed
state left by `toaster_end`. -/
theorem run_range_empty_range (min max : Int) (h : max < min)
    (test : Toaster → Int × Toaster) (s : Toaster) :
    toaster_run_range_trace min max test s = [] ∧
    (toaster_run_range min max test s).1 = -1 ∧
    (toaster_run_range min max test s).2 = ⟨0, false⟩ := by
  have hfuel : (max - min + 1).toNat = 0 := by omega
  rw [toaster_run_range_trace, toaster_run_range, hfuel]
  exact ⟨rfl, rfl, rfl⟩

theorem run_range_empty_range_witness :
    (0 : Int) < 1 ∧
    toaster_run_range_trace 1 0 (fun s => (0, s)) ⟨5, true⟩ = [] ∧
    (toaster_run_range 1 0 (fun s => (0, s)) ⟨5, true⟩).1 = -1 ∧
    (toaster_run_range 1 0 (fun s => (0, s)) ⟨5, true⟩).2 = ⟨0, false⟩ :=
  ⟨by decide,
   (run_range_empty_range 1 0 (by decide) (fun s => (0, s)) ⟨5, true⟩).1,
   (run_range_empty_range 1 0 (by decide) (fun s => (0, s)) ⟨5, true⟩).2.1,
   (run_range_empty_range 1 0 (by decide) (fun s => (0, s)) ⟨5, true⟩).2.2⟩

theorem runRangeAux_succ (test : Toaster → Int × Toaster) (fuel : Nat)
    (i err : Int) (s : Toaster) :
    runRangeAux test (fuel + 1) i err s =
      if (test (toaster_set i s)).1 = 0 then
        ((test (toaster_set i s)).1, (test (toaster_set i s)).2,
          [(i, (test (toaster_set i s)).1)])
      else
        ((runRangeAux test fuel (i + 1) (test (toaster_set i s)).1
            (test (toaster_set i s)).2).1,
         (runRangeAux test fuel (i + 1) (test (toaster_set i s)).1
            (test (toaster_set i s)).2).2.1,
         (i, (test (toaster_set i s)).1) ::
           (runRangeAux test fuel (i + 1) (test (toaster_set i s)).1
              (test (toaster_set i s)).2).2.2) := rfl

theorem runRangeAux_err_pos (test : Toaster → Int × Toaster) (fuel : Nat)
    (i err : Int) (s : Toaster) (h : (test (toaster_set i s)).1 = 0) :
    (runRangeAux test (fuel + 1) i err s).1 = 0 := by
  rw [runRangeAux_succ, if_pos h]
  exact h

theorem runRangeAux_trace_pos (test : Toaster → Int × Toaster) (fuel : Nat)
    (i err : Int) (s : Toaster) (h : (test (toaster_set i s)).1 = 0) :
    (runRangeAux test (fuel + 1) i err s).2.2 = [(i, (test (toaster_set i s)).1)] := by
  rw [runRangeAux_succ, if_pos h]

theorem runRangeAux_err_neg (test : Toaster → Int × Toaster) (fuel : Nat)
    (i err : Int) (s : Toaster) (h : ¬(test (toaster_set i s)).1 = 0) :
    (runRangeAux test (fuel + 1) i err s).1 =
      (runRangeAux test fuel (i + 1) (test (toaster_set i s)).1
        (test (toaster_set i s)).2).1 := by
  rw [runRangeAux_succ, if_neg h]

theorem runRangeAux_trace_neg (test : Toaster → Int × Toaster) (fuel : Nat)
    (i err : Int) (s : Toaster) (h : ¬(test (toaster_set i s)).1 = 0) :
    (runRangeAux test (fuel + 1) i err s).2.2 =
      (i, (test (toaster_set i s)).1) ::
        (runRangeAux test fuel (i + 1) (test (toaster_set i s)).1
          (test (toaster_set i s)).2).2.2 := by
  rw [runRangeAux_succ, if_neg h]

theorem runRangeAux_length_le (test : Toaster → Int × Toaster) :
    ∀ (fuel : Nat) (i err : Int) (s : Toaster),
      (runRangeAux test fuel i err s).2.2.length ≤ fuel := by
  intro fuel
  induction fuel with
  | zero => intro i err s; simp [runRangeAux]
  | succ fuel ih =>
      intro i err s
      by_cases h : (test (toaster_set i s)).1 = 0
      · rw [runRangeAux_trace_pos test fuel i err s h]
        exact Nat.succ_le_succ (Nat.zero_le fuel)
      · rw [runRangeAux_trace_neg test fuel i err s h, List.length_cons]
        exact Nat.succ_le_succ (ih (i + 1) _ _)

theorem runRangeAux_success_stops (test : Toaster → Int × Toaster) :
    ∀ (fuel : Nat) (i err : Int) (s : Toaster) (j : Nat) (p : Int × Int),
      (runRangeAux test fuel i err s).2.2.get? j = some p → p.2 = 0 →
      (runRangeAux test fuel i err s).2.2.length = j + 1 ∧
      (runRangeAux test fuel i err s).1 = 0 := by
  intro fuel
  induction fuel with
  | zero => intro i err s j p hget; simp [runRangeAux] at hget
  | succ fuel ih =>
      intro i err s j p hget hp
      by_cases h : (test (toaster_set i s)).1 = 0
      · rw [runRangeAux_trace_pos test fuel i err s h] at hget ⊢
        cases j with
        | zero => exact ⟨rfl, runRangeAux_err_pos test fuel i err s h⟩
        | succ j => simp at hget
      · rw [runRangeAux_trace_neg test fuel i err s h] at hget ⊢
        cases j with
        | zero =>
            rw [List.get?_cons_zero] at hget
            obtain rfl := Option.some.inj hget
            exact absurd hp h
        | succ j =>
            rw [List.get?_cons_succ] at hget
            have hh := ih (i + 1) _ _ j p hget hp
            refine ⟨?_, ?_⟩
            · rw [List.length_cons, hh.1]
            · rw [runRangeAux_err_neg test fuel i err s h]
              exact hh.2

theorem getLast?_snd_getD (l : List (Int × Int)) : ∀ (a : Int × Int) (d : Int),
    (((a :: l).getLast?).map Prod.snd).getD d =
      ((l.getLast?).map Prod.snd).getD a.2 := by
  induction l with
  | nil => intro a d; rfl
  | cons b l ih =>
      intro a d
      rw [List.getLast?_cons_cons, ih b d, ih b a.2]

theorem runRangeAux_all_fail (test : Toaster → Int × Toaster) :
    ∀ (fuel : Nat) (i err : Int) (s : Toaster),
      (∀ p ∈ (runRangeAux test fuel i err s).2.2, p.2 ≠ 0) →
      (runRangeAux test fuel i err s).1 =
        (((runRangeAux test fuel i err s).2.2.getLast?).map Prod.snd).getD err := by
  intro fuel
  induction fuel with
  | zero => intro i err s _; simp [runRangeAux]
  | succ fuel ih =>
      intro i err s hall
      by_cases h : (test (toaster_set i s)).1 = 0
      · exfalso
        rw [runRangeAux_trace_pos test fuel i err s h] at hall
        exact hall (i, (test (toaster_set i s)).1) (by simp) h
      · rw [runRangeAux_trace_neg test fuel i err s h] at hall ⊢
        have hrest : ∀ p ∈ (runRangeAux test fuel (i + 1) (test (toaster_set i s)).1
            (test (toaster_set i s)).2).2.2, p.2 ≠ 0 :=
          fun p hp => hall p (List.mem_cons_of_mem _ hp)
        rw [runRangeAux_err_neg test fuel i err s h, ih (i + 1) _ _ hrest,
          getLast?_snd_getD]

/-- C4: with `min ≤ max`, `toaster_run_range` invokes the test at most
`max - min + 1` times, and if the attempt at position `j` of the trace
has outcome 0 (success) then it is the last attempt — the test is never
invoked again — and the driver returns 0. -/
theorem run_range_stops_at_first_success (min max : Int) (h : min ≤ max)
    (test : Toaster → Int × Toaster) (s : Toaster) :
    ((toaster_run_range_trace min max test s).length : Int) ≤ max - min + 1 ∧
    (∀ (j : Nat) (p : Int × Int),
      (toaster_run_range_trace min max test s).get? j = some p → p.2 = 0 →
      (toaster_run_range_trace min max test s).length = j + 1 ∧
      (toaster_run_range min max test s).1 = 0) := by
  constructor
  · have hlen := runRangeAux_length_le test (max - min + 1).toNat min (-1) s
    rw [toaster_run_range_trace]
    omega
  · intro j p hget hp
    have := runRangeAux_success_stops test (max - min + 1).toNat min (-1) s j p
      (by rw [toaster_run_range_trace] at hget; exact hget) hp
    exact ⟨this.1, this.2⟩

theorem run_range_stops_at_first_success_witness :
    (0 : Int) ≤ 2 ∧
    ((toaster_run_range_trace 0 2 (fun st => toaster_check st) ⟨0, false⟩).length : Int)
      ≤ 2 - 0 + 1 ∧
    (toaster_run_range_trace 0 2 (fun st => toaster_check st) ⟨0, false⟩).length = 1 + 1 ∧
    (toaster_run_range 0 2 (fun st => toaster_check st) ⟨0, false⟩).1 = 0 :=
  ⟨by decide,
   (run_range_stops_at_first_success 0 2 (by decide) (fun st => toaster_check st)
      ⟨0, false⟩).1,
   ((run_range_stops_at_first_success 0 2 (by decide) (fun st => toaster_check st)
      ⟨0, false⟩).2 1 (1, 0) (by decide) (by decide)).1,
   ((run_range_stops_at_first_success 0 2 (by decide) (fun st => toaster_check st)
      ⟨0, false⟩).2 1 (1, 0) (by decide) (by decide)).2⟩

/-- Sample always-failing test used as a concrete probe: it fails with a
distinct outcome when armed with budget 1, so the driver must surface the
outcome of the last attempt. -/
def lastFailProbe : Toaster → Int × Toaster :=
  fun st => (if st.gcnt = 1 then -7 else -1, st)

/-- C3: for every `min`, `max` and test function, `toaster_run_range`
leaves the budget disarmed (`gset = false`, `gcnt = 0`) after it returns,
whether it stopped early or exhausted the range; and if every attempt in
the trace failed (the loop exhausted without success), the returned
outcome is the outcome observed on the last attempt. -/
theorem run_range_disarms_and_returns_last_failure (min max : Int)
    (test : Toaster → Int × Toaster) (s : Toaster) :
    (toaster_run_range min max test s).2.gset = false ∧
    (toaster_run_range min max test s).2.gcnt = 0 ∧
    ((∀ p ∈ toaster_run_range_trace min max test s, p.2 ≠ 0) →
      ∀ p : Int × Int, (toaster_run_range_trace min max test s).getLast? = some p →
        (toaster_run_range min max test s).1 = p.2) := by
  refine ⟨rfl, rfl, ?_⟩
  intro hall p hlast
  have h := runRangeAux_all_fail test (max - min + 1).toNat min (-1) s
    (by rw [toaster_run_range_trace] at hall; exact hall)
  show (runRangeAux test (max - min + 1).toNat min (-1) s).1 = p.2
  rw [h]
  rw [toaster_run_range_trace] at hlast
  rw [hlast]
  rfl

theorem run_range_disarms_and_returns_last_failure_witness :
    (toaster_run_range 0 1 lastFailProbe ⟨0, false⟩).2.gset = false ∧
    (toaster_run_range 0 1 lastFailProbe ⟨0, false⟩).2.gcnt = 0 ∧
    (toaster_run_range 0 1 lastFailProbe ⟨0, false⟩).1 = -7 :=
  ⟨(run_range_disarms_and_returns_last_failure 0 1 lastFailProbe ⟨0, false⟩).1,
   (run_range_disarms_and_returns_last_failure 0 1 lastFailProbe ⟨0, false⟩).2.1,
   (run_range_disarms_and_returns_last_failure 0 1 lastFailProbe ⟨0, false⟩).2.2
     (by decide) (1, -7) (by decide)⟩

/-- C5 counterexample: the claim says `toaster_run` invokes the test with
fault injection disabled, so that every consume during the call returns
"pass", for every prior budget state.  But `toaster_run` is just
`return test();`: with the prior state armed and exhausted
(`gcnt = 0, gset = 1`), a test consisting of a single `toaster_check`
observes -1 ("fail"), not 0 ("pass"). -/
theorem run_once_injection_not_disabled :
    (toaster_run toaster_check ⟨0, true⟩).1 = -1 ∧ ((-1 : Int) = 0 → False) := by
  exact ⟨rfl, by decide⟩

/-- C5 amended: `toaster_run` performs no budget interaction — it passes
the caller state to the test untouched and returns the outcome and state
of the test unchanged; consequently injection is disabled during the call
exactly when the budget was already disarmed at entry, in which case every
consume during the call returns 0 ("pass") and leaves the state
unchanged. -/
theorem run_once_no_budget_interaction (test : Toaster → Int × Toaster)
    (s : Toaster) :
    toaster_run test s = test s ∧
    (s.gset = false → ∀ k : Nat, nthCheckResult k s = 0 ∧ checkIter k s = s) := by
  obtain ⟨g, b⟩ := s
  refine ⟨rfl, ?_⟩
  intro hb k
  cases b with
  | false => exact ⟨nthCheckResult_disarmed k g, checkIter_disarmed k g⟩
  | true => cases hb

theorem run_once_no_budget_interaction_witness :
    toaster_run (fun st => (0, st)) ⟨7, false⟩ = (0, ⟨7, false⟩) ∧
    nthCheckResult 5 ⟨7, false⟩ = 0 :=
  ⟨(run_once_no_budget_interaction (fun st => (0, st)) ⟨7, false⟩).1,
   ((run_once_no_budget_interaction (fun st => (0, st)) ⟨7, false⟩).2 rfl 5).1⟩

/-- A logically correct test function with exactly `k` reachable
checkpoints on its sole success path: it evaluates `k` sequential
checkpoints through `toaster_check` (each with a real condition that is
true), propagates the first induced failure as -1, and returns 0 when all
`k` checkpoints pass.  This is the shape the `TEST` macro of toaster.h
expands to for a straight-line function under test. -/
def checkpointFn : Nat → Toaster → Int × Toaster
  | 0, s => (0, s)
  | k + 1, s =>
      let r := toaster_check s
      if r.1 = 0 then checkpointFn k r.2 else (-1, r.2)

theorem checkpointFn_step_fail (k : Nat) (i : Int) (h : i - 1 < 0) :
    checkpointFn (k + 1) ⟨i, true⟩ = (-1, ⟨i - 1, true⟩) := by
  simp [checkpointFn, toaster_check_armed, h]

theorem checkpointFn_step_pass (k : Nat) (i : Int) (h : ¬ i - 1 < 0) :
    checkpointFn (k + 1) ⟨i, true⟩ = checkpointFn k ⟨i - 1, true⟩ := by
  simp [checkpointFn, toaster_check_armed, h]

/-- Armed with budget `i ≥ 0`, the `k`-checkpoint test function succeeds
exactly when the budget covers all `k` checkpoints. -/
theorem checkpointFn_armed (k : Nat) : ∀ (i : Int), 0 ≤ i →
    ((checkpointFn k ⟨i, true⟩).1 = 0 ↔ (k : Int) ≤ i) := by
  induction k with
  | zero =>
      intro i hi
      simpa [checkpointFn] using hi
  | succ k ih =>
      intro i hi
      by_cases h : i - 1 < 0
      · rw [checkpointFn_step_fail k i h]
        constructor
        · intro habs
          have hx : (-1 : Int) = 0 := habs
          exact absurd hx (by decide)
        · intro hk
          exfalso
          omega
      · rw [checkpointFn_step_pass k i h, ih (i - 1) (by omega)]
        push_cast
        omega

/-- Core sweep lemma: if the test succeeds at armed budget `i` exactly
when `i ≥ k`, then a loop starting at budget `i ≤ k` with enough fuel to
reach `k` returns 0 and produces one attempt per budget `i, i+1, ..., k`,
all failing except the last. -/
theorem runRangeAux_sweep (test : Toaster → Int × Toaster) (k : Nat)
    (hfn : ∀ i : Int, 0 ≤ i → ((test ⟨i, true⟩).1 = 0 ↔ (k : Int) ≤ i)) :
    ∀ (fuel : Nat) (i err : Int) (s : Toaster),
      0 ≤ i → i ≤ (k : Int) → (k : Int) < i + fuel →
      (runRangeAux test fuel i err s).1 = 0 ∧
      ((runRangeAux test fuel i err s).2.2.length : Int) = (k : Int) - i + 1 ∧
      (∀ (j : Nat) (p : Int × Int),
        (runRangeAux test fuel i err s).2.2.get? j = some p →
        p.1 = i + j ∧ (p.2 = 0 ↔ i + (j : Int) = k)) := by
  intro fuel
  induction fuel with
  | zero =>
      intro i err s h0 hik hkf
      exfalso
      omega
  | succ fuel ih =>
      intro i err s h0 hik hkf
      by_cases hsucc : (test (toaster_set i s)).1 = 0
      · have hki : (k : Int) ≤ i := (hfn i h0).mp hsucc
        refine ⟨runRangeAux_err_pos test fuel i err s hsucc, ?_, ?_⟩
        · rw [runRangeAux_trace_pos test fuel i err s hsucc, List.length_singleton]
          omega
        · intro j p hget
          rw [runRangeAux_trace_pos test fuel i err s hsucc] at hget
          cases j with
          | zero =>
              rw [List.get?_cons_zero] at hget
              obtain rfl := Option.some.inj hget
              refine ⟨by simp, ?_⟩
              constructor
              · intro _
                omega
              · intro _
                exact hsucc
          | succ j => simp at hget
      · have hik2 : i < (k : Int) := by
          rcases lt_or_ge i (k : Int) with h | h
          · exact h
          · exact absurd ((hfn i h0).mpr h) hsucc
        have hrest := ih (i + 1) (test (toaster_set i s)).1 (test (toaster_set i s)).2
          (by omega) (by omega) (by omega)
        have hlen := hrest.2.1
        refine ⟨?_, ?_, ?_⟩
        · rw [runRangeAux_err_neg test fuel i err s hsucc]
          exact hrest.1
        · rw [runRangeAux_trace_neg test fuel i err s hsucc, List.length_cons]
          push_cast at hlen ⊢
          omega
        · intro j p hget
          rw [runRangeAux_trace_neg test fuel i err s hsucc] at hget
          cases j with
          | zero =>
              rw [List.get?_cons_zero] at hget
              obtain rfl := Option.some.inj hget
              refine ⟨by simp, ?_⟩
              constructor
              · intro hz
                exact absurd hz hsucc
              · intro hz
                exfalso
                omega
          | succ j =>
              rw [List.get?_cons_succ] at hget
              have hj := hrest.2.2 j p hget
              have hj1 := hj.1
              have hj2 := hj.2
              refine ⟨?_, ?_⟩
              · rw [hj1]
                push_cast
                ring
              · rw [hj2]
                constructor
                · intro hz
                  omega
                · intro hz
                  omega

/-- C2: for every test function that (when armed with budget `i ≥ 0`)
succeeds exactly when `i` covers its `k` reachable checkpoints — the
semantic content of "exactly `k` checkpoints on its sole success path and
correct propagation of every induced failure" — and every `max ≥ k`,
`toaster_run_max max` returns 0, makes exactly `k + 1` attempts, and the
attempt at position `j` uses budget `j` and succeeds exactly when
`j = k`: budgets `0 .. k-1` fail and budget `k` is the first and only
success. -/
theorem run_max_sweep_finds_budget_k (k : Nat) (max : Int)
    (test : Toaster → Int × Toaster) (s : Toaster)
    (hmax : (k : Int) ≤ max)
    (hfn : ∀ i : Int, 0 ≤ i → ((test ⟨i, true⟩).1 = 0 ↔ (k : Int) ≤ i)) :
    (toaster_run_max max test s).1 = 0 ∧
    (toaster_run_max_trace max test s).length = k + 1 ∧
    (∀ (j : Nat) (p : Int × Int),
      (toaster_run_max_trace max test s).get? j = some p →
      p.1 = (j : Int) ∧ (p.2 = 0 ↔ j = k)) := by
  have hsw := runRangeAux_sweep test k hfn (max - 0 + 1).toNat 0 (-1) s
    (by omega) (by omega) (by omega)
  have hlen := hsw.2.1
  refine ⟨hsw.1, ?_, ?_⟩
  · show (toaster_run_range_trace 0 max test s).length = k + 1
    rw [toaster_run_range_trace]
    omega
  · intro j p hget
    have hget2 : (runRangeAux test (max - 0 + 1).toNat 0 (-1) s).2.2.get? j = some p := by
      rw [toaster_run_max_trace, toaster_run_range_trace] at hget
      exact hget
    have hj := hsw.2.2 j p hget2
    have hj1 := hj.1
    have hj2 := hj.2
    refine ⟨?_, ?_⟩
    · rw [hj1]
      omega
    · rw [hj2]
      constructor
      · intro hz
        omega
      · intro hz
        omega

theorem run_max_sweep_finds_budget_k_witness :
    ((3 : Nat) : Int) ≤ 10 ∧
    (toaster_run_max 10 (checkpointFn 3) ⟨0, false⟩).1 = 0 ∧
    (toaster_run_max_trace 10 (checkpointFn 3) ⟨0, false⟩).length = 3 + 1 ∧
    toaster_run_max_trace 10 (checkpointFn 3) ⟨0, false⟩ =
      [(0, -1), (1, -1), (2, -1), (3, 0)] :=
  ⟨by decide,
   (run_max_sweep_finds_budget_k 3 10 (checkpointFn 3) ⟨0, false⟩ (by decide)
      (fun i hi => checkpointFn_armed 3 i hi)).1,
   (run_max_sweep_finds_budget_k 3 10 (checkpointFn 3) ⟨0, false⟩ (by decide)
      (fun i hi => checkpointFn_armed 3 i hi)).2.1,
   by decide⟩
